import Mathlib

/-
  Verification development for the pkgbridge orchestration pipeline.

  The Rust sources are shallow-embedded below.  External subprocesses
  (distrobox, distrobox-export, package managers) are modelled as oracle
  parameters: their exit status and captured output are inputs to the
  embedded functions, exactly where the Rust code consumes them.  The host
  file system (the binaries directory, snapshot files) is modelled as an
  association list from names to file contents; writing is insertion with
  replacement, which matches the last-writer-wins semantics of fs::write.

  All string manipulation is re-implemented over List Char with structural
  recursion so that every definition evaluates by kernel reduction.
-/

namespace PkgBridge

/-! ### Character and string helpers (ASCII semantics of the Rust std) -/

/-- Lower-case a single ASCII character, as Rust char::to_ascii_lowercase. -/
def lowerCh (c : Char) : Char :=
  if 'A' ≤ c ∧ c ≤ 'Z' then Char.ofNat (c.toNat + 32) else c

/-- Lower-case every ASCII letter, as Rust str::to_ascii_lowercase. -/
def toLowerAscii (s : String) : String :=
  String.mk (s.data.map lowerCh)

/-- Rust str::eq_ignore_ascii_case. -/
def eqIgnoreCase (a b : String) : Bool :=
  decide (toLowerAscii a = toLowerAscii b)

/-- Trim ASCII whitespace from both ends of a character list (Rust str::trim,
restricted to the ASCII whitespace that actually occurs in the data). -/
def trimL (l : List Char) : List Char :=
  ((l.dropWhile Char.isWhitespace).reverse.dropWhile Char.isWhitespace).reverse

/-- Rust str::trim on strings. -/
def trimS (s : String) : String :=
  String.mk (trimL s.data)

/-- Split a character list at every separator character, keeping empty pieces,
as Rust str::split(char). -/
def splitChar (p : Char → Bool) : List Char → List (List Char)
  | [] => [[]]
  | c :: rest =>
    let r := splitChar p rest
    if p c then [] :: r
    else
      match r with
      | h :: t => (c :: h) :: t
      | [] => [[c]]

/-- Rust str::split_whitespace: split on whitespace and drop empty pieces. -/
def splitWhitespace (s : String) : List String :=
  ((splitChar Char.isWhitespace s.data).filter (fun l => l ≠ [])).map String.mk

/-- Drop `pre` from the front of a list, if it is there (Rust str::strip_ with
a leading pattern). -/
def stripPreL (pre l : List Char) : Option (List Char) :=
  match pre, l with
  | [], rest => some rest
  | _ :: _, [] => none
  | p :: ps, c :: cs => if c = p then stripPreL ps cs else none

/-- Whether `pre` is an initial segment of `l`. -/
def startsWithL (pre l : List Char) : Bool :=
  (stripPreL pre l).isSome

/-- Whether pattern `pat` occurs as a contiguous run inside `hay`
(Rust slice::windows(n).any). -/
def hasWindow {α : Type} [DecidableEq α] (hay pat : List α) : Bool :=
  (List.range hay.length).any (fun i => decide ((hay.drop i).take pat.length = pat))

/-- Substring test on strings. -/
def strContains (hay needle : String) : Bool :=
  hasWindow hay.data needle.data

/-- Strip one trailing carriage return, as Rust str::lines does per line. -/
def stripCR (l : List Char) : List Char :=
  if l.getLast? = some '\r' then l.dropLast else l

/-- Rust str::lines: split on newline; a final empty piece produced by a
trailing newline is dropped.  (Rust yields [] on the empty string while this
yields [""]; every embedded consumer skips blank lines, so the two agree on
all observable behaviour.) -/
def rustLines (s : String) : List String :=
  let ps := splitChar (fun c => c = '\n') s.data
  let ps := if ps.getLast? = some [] then ps.dropLast else ps
  (ps.map stripCR).map String.mk

/-- Rust str::parse::<u64> (also usize on 64-bit): optional leading plus sign,
then one or more ASCII digits, value below 2^64. -/
def parseU64 (s : String) : Option Nat :=
  let t := if s.data.head? = some '+' then s.data.drop 1 else s.data
  if t ≠ [] ∧ t.all Char.isDigit then
    let v := t.foldl (fun acc c => acc * 10 + (c.toNat - 48)) 0
    if v < 2 ^ 64 then some v else none
  else none

/-! ### Format Detector (src/pkgdetect.rs) -/

inductive PackageFormat where
  | Deb
  | Rpm
deriving DecidableEq, Repr

/-- A package file as the detector sees it: the path extension (as produced by
Path::extension, already decoded to a string when valid) and the file bytes. -/
structure PkgFile where
  ext : Option String
  bytes : List Nat
deriving DecidableEq, Repr

/-- RPM lead magic ED AB EE DB. -/
def rpmMagic : List Nat := [0xed, 0xab, 0xee, 0xdb]

/-- ar archive magic for .deb files. -/
def arMagic : List Nat := [0x21, 0x3c, 0x61, 0x72, 0x63, 0x68, 0x3e, 0x0a]

/-- The bytes of the literal token debian-binary. -/
def debianBinaryTok : List Nat := [100, 101, 98, 105, 97, 110, 45, 98, 105, 110, 97, 114, 121]

/-- Last-resort scan of the first 2048 bytes for the debian-binary token
(pkgdetect.rs lines 33-38). -/
def detectScan (bytes : List Nat) : Option PackageFormat :=
  if hasWindow (bytes.take 2048) debianBinaryTok then some PackageFormat.Deb else none

/-- Magic-byte sniff (pkgdetect.rs lines 18-31).  The Rust code reads up to 8
header bytes and only consults them when the read returned at least 8, so a
file shorter than 8 bytes goes straight to the fallback scan. -/
def detectContent (bytes : List Nat) : Option PackageFormat :=
  if 8 ≤ bytes.length then
    if bytes.take 4 = rpmMagic then some PackageFormat.Rpm
    else if bytes.take 8 = arMagic then some PackageFormat.Deb
    else detectScan bytes
  else detectScan bytes

/-- detect_package_format (pkgdetect.rs lines 8-41): extension hint first,
then magic sniff, then token scan; none returned means the FormatUnknown
error. -/
def detect_package_format (f : PkgFile) : Option PackageFormat :=
  if f.ext.map toLowerAscii = some "deb" then some PackageFormat.Deb
  else if f.ext.map toLowerAscii = some "rpm" then some PackageFormat.Rpm
  else detectContent f.bytes

/-! ### Container Directory (src/distro.rs lines 6-134) -/

/-- ContainerRecord produced by discovery. -/
structure DistroBox where
  name : String
  image : Option String
  runtime : String
deriving DecidableEq, Repr

/-- Captured result of a finished subprocess: exit success flag and stdout.
A spawn failure (the external binary is absent) is modelled as a missing
result, i.e. the Option wrapper around this type is none. -/
structure ProcOutput where
  success : Bool
  stdout : String
deriving DecidableEq, Repr

/-- One column of a pipe table is a separator column when all of its
characters are dashes or plus signs (distro.rs line 103). -/
def isSepCol (c : String) : Bool :=
  c.data.all (fun ch => ch = '-' ∨ ch = '+')

/-- The whitespace-format branch of parse_boxes_plain (distro.rs lines
113-131). -/
def parsePlainWs (saw : Bool) (acc : List DistroBox) (t : String) : Bool × List DistroBox :=
  if startsWithL "NAME".data t.data ∨ startsWithL "+---".data t.data ∨
      strContains t "CONTAINER ID" ∨ eqIgnoreCase t "id" then (saw, acc)
  else
    let parts := splitWhitespace t
    if 1 ≤ parts.length then
      if saw ∧ 6 ≤ ((parts.get? 0).getD "").data.length ∧ (parts.get? 1).isSome then
        (saw, acc ++ [⟨(parts.get? 1).getD "", parts.get? 3, "unknown"⟩])
      else
        let name := (parts.get? 0).getD ""
        if eqIgnoreCase name "NAME" ∨ eqIgnoreCase name "Created" then (saw, acc)
        else (saw, acc ++ [⟨name, parts.get? 1, "unknown"⟩])
    else (saw, acc)

/-- One line of parse_boxes_plain (distro.rs lines 89-132); the state is the
saw_pipe_header flag and the boxes accumulated so far. -/
def parsePlainLine (saw : Bool) (acc : List DistroBox) (line : String) : Bool × List DistroBox :=
  let t := trimS line
  if t = "" then (saw, acc)
  else if t.data.any (fun c => c = '|') then
    let cols := ((splitChar (fun c => c = '|') t.data).map trimL).map String.mk
    if cols.any (fun c => eqIgnoreCase c "NAME") ∧ cols.any (fun c => eqIgnoreCase c "ID") then
      (true, acc)
    else if cols.all isSepCol then (saw, acc)
    else if 2 ≤ cols.length then
      let name := (cols.get? 1).getD ""
      if name = "" ∨ eqIgnoreCase name "NAME" then (saw, acc)
      else (saw, acc ++ [⟨name, cols.get? 3, "unknown"⟩])
    else parsePlainWs saw acc t
  else parsePlainWs saw acc t

/-- parse_boxes_plain (distro.rs lines 83-134). -/
def parse_boxes_plain (s : String) : List DistroBox :=
  ((rustLines s).foldl (fun st l => parsePlainLine st.1 st.2 l) (false, [])).2

/-- discover_boxes (distro.rs lines 24-50).  The two subprocess invocations
are oracle inputs (none models a spawn failure: the distrobox binary is
absent); parse_boxes_json is an oracle because it delegates to the external
serde_json crate.  A spawn failure of the second invocation propagates as an
error through the question-mark operator in the Rust code. -/
def discover_boxes (jsonRes plainRes : Option ProcOutput)
    (parseJson : String → Option (List DistroBox)) : Except String (List DistroBox) :=
  let fallback : Except String (List DistroBox) :=
    match plainRes with
    | none => Except.error "running 'distrobox list'"
    | some out => if out.success then Except.ok (parse_boxes_plain out.stdout) else Except.ok []
  match jsonRes with
  | some out =>
    if out.success ∧ trimS out.stdout ≠ "" then
      match parseJson out.stdout with
      | some l => Except.ok l
      | none => fallback
    else fallback
  | none => fallback

/-! ### Family Classifier (src/distro.rs lines 136-183) -/

inductive Family where
  | Debian
  | Fedora
  | OpenSuse
  | Arch
deriving DecidableEq, Repr

/-- The double-quote character. -/
def dquote : Char := Char.ofNat 34

/-- The single-quote character. -/
def squote : Char := Char.ofNat 39

/-- unquote (distro.rs lines 166-171).  The Rust body slices
t[1..t.len().saturating_sub(1)] after checking that the trimmed value starts
and ends with the same quote character; when the value is a single quote
character that slice is t[1..0], which panics.  The panic is modelled as
none. -/
def unquote (s : String) : Option String :=
  let t := trimL s.data
  if (t.head? = some dquote ∧ t.getLast? = some dquote) ∨
      (t.head? = some squote ∧ t.getLast? = some squote) then
    if t.length ≤ 1 then none
    else some (String.mk ((t.drop 1).dropLast))
  else some (String.mk t)

/-- One line of parse_os_release (distro.rs lines 153-162); none propagates a
panic out of unquote. -/
def parseLineStep (acc : Option String × List String) (line : String) :
    Option (Option String × List String) :=
  let l := trimS line
  if l = "" ∨ l.data.head? = some '#' then some acc
  else
    match stripPreL "ID=".data l.data with
    | some rest => (unquote (String.mk rest)).map (fun u => (some (toLowerAscii u), acc.2))
    | none =>
      match stripPreL "ID_LIKE=".data l.data with
      | some rest =>
        (unquote (String.mk rest)).map
          (fun u => (acc.1, acc.2 ++ splitWhitespace (toLowerAscii u)))
      | none => some acc

/-- parse_os_release (distro.rs lines 150-164): the last ID= line wins, the
ID_LIKE tokens of every ID_LIKE= line accumulate; none models a panic. -/
def parse_os_release (s : String) : Option (Option String × List String) :=
  (rustLines s).foldlM parseLineStep (none, [])

/-- The token list classify_ids builds: the ID value, if any, followed by the
ID_LIKE tokens (distro.rs lines 174-176). -/
def classifyTokens (id : Option String) (idLike : List String) : List String :=
  (match id with
   | some i => [i]
   | none => []) ++ idLike

/-- classify_ids (distro.rs lines 173-183); none is the
ClassificationFailure error. -/
def classify_ids (id : Option String) (idLike : List String) : Option Family :=
  let tokens := classifyTokens id idLike
  if tokens.any (fun t => t = "debian" ∨ t = "ubuntu") then some Family.Debian
  else if tokens.any (fun t => t = "fedora" ∨ t = "rhel" ∨ t = "centos") then some Family.Fedora
  else if tokens.any (fun t => t = "opensuse" ∨ t = "sles" ∨ t = "suse") then some Family.OpenSuse
  else if tokens.any (fun t => t = "arch" ∨ t = "manjaro" ∨ t = "endeavouros") then
    some Family.Arch
  else none

/-- classify_box_family on an already captured release-file text (distro.rs
lines 145-147): outer none is a parser panic, inner none the
ClassificationFailure error. -/
def classify_release (s : String) : Option (Option Family) :=
  (parse_os_release s).map (fun p => classify_ids p.1 p.2)

/-! ### Defaults and state records (src/config.rs) -/

/-- The defaults record: family key to container name (config.rs lines
7-11). -/
structure PBConfig where
  pm_defaults : List (String × String)
deriving DecidableEq, Repr

/-- The first-run state record (config.rs lines 13-17). -/
structure PBState where
  first_run_done : Bool
deriving DecidableEq, Repr

/-- load_config (config.rs lines 33-39).  The file read result and the toml
parse (external crate) are oracles; any failure of either collapses to the
default record. -/
def load_config (fileRead : Option String) (tomlParse : String → Option PBConfig) : PBConfig :=
  match fileRead with
  | some s => (tomlParse s).getD ⟨[]⟩
  | none => ⟨[]⟩

/-- load_state (config.rs lines 49-55). -/
def load_state (fileRead : Option String) (tomlParse : String → Option PBState) : PBState :=
  match fileRead with
  | some s => (tomlParse s).getD ⟨false⟩
  | none => ⟨false⟩

/-! ### A name-to-content map with last-writer-wins insertion

Used both for the host binaries directory (file name to file bytes) and for
the HashMap name-to-version snapshots. -/

/-- Association list with unique-key insertion semantics. -/
def Fs : Type := List (String × String)

/-- Lookup, first matching key (HashMap::get; also file existence / read). -/
def lookupAL : List (String × String) → String → Option String
  | [], _ => none
  | (k0, v0) :: rest, k => if k0 = k then some v0 else lookupAL rest k

/-- Insert with replacement (HashMap::insert; also fs::write). -/
def insertAL : List (String × String) → String → String → List (String × String)
  | [], k, v => [(k, v)]
  | (k0, v0) :: rest, k, v =>
    if k0 = k then (k, v) :: rest else (k0, v0) :: insertAL rest k v

/-! ### Export Engine, binaries (src/cli.rs lines 534-557, 609-621) -/

/-- The fallback shim text written by write_simple_shim (cli.rs line 611). -/
def shim_content (boxName cmdName : String) : String :=
  "#!/usr/bin/env sh\nexec distrobox enter -n " ++ boxName ++ " -- " ++ cmdName ++ " \"$@\"\n"

/-- The collision shim name b-container (cli.rs line 545). -/
def shimPath (b boxName : String) : String :=
  b ++ "-" ++ boxName

/-- One iteration of the binary loop of export_items (cli.rs lines 540-557).
The host binaries directory is the map fs.  exportOk is the exit status of
the external distrobox-export helper; on success the helper itself creates a
host entry at the binary name with content extContent (abstracted: the helper
is an external tool).  On collision, and on helper failure, the code writes
its own shim. -/
def export_one_bin (boxName : String) (exportOk : String → Bool)
    (extContent : String → String) (fs : List (String × String)) (b : String) :
    List (String × String) :=
  if (lookupAL fs b).isSome then
    insertAL fs (shimPath b boxName) (shim_content boxName b)
  else if exportOk b then
    insertAL fs b (extContent b)
  else
    insertAL fs b (shim_content boxName b)

/-- The binary half of export_items: fold the per-binary step over the
discovered binary names. -/
def export_bins (boxName : String) (exportOk : String → Bool)
    (extContent : String → String) (fs : List (String × String)) (bins : List String) :
    List (String × String) :=
  bins.foldl (export_one_bin boxName exportOk extContent) fs

/-- The binaries directory holds the fallback shim for binary b of the given
container at the collision path b-container. -/
def HasShim (boxName b : String) (fs : List (String × String)) : Prop :=
  lookupAL fs (shimPath b boxName) = some (shim_content boxName b)

/-- A host file at name p with content cp is either untouched, or p is the
collision shim path of one of the exported binaries and holds exactly that
fallback shim. -/
def ShimOrSame (boxName : String) (bins : List String) (p cp : String)
    (fs : List (String × String)) : Prop :=
  lookupAL fs p = some cp ∨
    ∃ b, b ∈ bins ∧ p = shimPath b boxName ∧ lookupAL fs p = some (shim_content boxName b)

/-! ### Snapshot-Diff Engine (src/cli.rs lines 826-859) -/

/-- Parse one prior-snapshot line, splitn(2, tab): the name is everything
before the first tab, the version the rest (empty when there is no tab). -/
def parse_before_line (l : String) : Option (String × String) :=
  let pre := l.data.takeWhile (fun c => c ≠ '\t')
  let post := l.data.dropWhile (fun c => c ≠ '\t')
  match post with
  | [] => some (String.mk pre, "")
  | _ :: rest => some (String.mk pre, String.mk rest)

/-- Parse one current-inventory line; a line without a tab is skipped
(cli.rs line 838 requires both splitn pieces). -/
def parse_after_line (l : String) : Option (String × String) :=
  let pre := l.data.takeWhile (fun c => c ≠ '\t')
  let post := l.data.dropWhile (fun c => c ≠ '\t')
  match post with
  | [] => none
  | _ :: rest => some (String.mk pre, String.mk rest)

/-- Build a name-to-version map from snapshot lines; duplicate names resolve
last-writer-wins as with HashMap collection. -/
def mapFromLines (parse : String → Option (String × String)) (lines : List String) :
    List (String × String) :=
  lines.foldl
    (fun m l =>
      match parse l with
      | some (n, v) => insertAL m n v
      | none => m) []

/-- A current package is new when its name is absent from the prior map
(cli.rs line 843). -/
def isNewAt (beforeMap : List (String × String)) (p : String × String) : Bool :=
  (lookupAL beforeMap p.1).isNone

/-- A current package is upgraded when the prior map holds a different
version string (cli.rs line 844). -/
def isUpgAt (beforeMap : List (String × String)) (p : String × String) : Bool :=
  match lookupAL beforeMap p.1 with
  | some prev => decide (prev ≠ p.2)
  | none => false

/-- Outcome of pm_post_transaction: the classification, the packages handed
to the Export Engine, and the snapshot write (none when the file is left
untouched). -/
structure PTResult where
  newPkgs : List String
  upgraded : List String
  exported : List String
  snapshot : Option (List String)
deriving DecidableEq, Repr

/-- pm_post_transaction (cli.rs lines 826-859) on the prior snapshot file
lines and the freshly queried inventory lines.  When nothing is new or
upgraded the Rust code returns early: nothing is exported and the snapshot
file is not rewritten. -/
def pm_post_transaction (beforeLines afterLines : List String) : PTResult :=
  let beforeMap := mapFromLines parse_before_line beforeLines
  let afterMap := mapFromLines parse_after_line afterLines
  let newPkgs := (afterMap.filter (isNewAt beforeMap)).map Prod.fst
  let upgraded := (afterMap.filter (isUpgAt beforeMap)).map Prod.fst
  if newPkgs.isEmpty ∧ upgraded.isEmpty then
    { newPkgs := newPkgs, upgraded := upgraded, exported := [], snapshot := none }
  else
    { newPkgs := newPkgs, upgraded := upgraded, exported := newPkgs ++ upgraded,
      snapshot := some afterLines }

/-- The snapshot file contents after pm_post_transaction: rewritten on a
write, otherwise whatever the prior file held. -/
def final_snapshot_file (beforeLines afterLines : List String) : List String :=
  match (pm_post_transaction beforeLines afterLines).snapshot with
  | some s => s
  | none => beforeLines

/-! ### Container Selector (src/cli.rs lines 337-419) -/

/-- How select_or_create came to its answer.  selected is the prompt-free
direct return (the explicit-container branch and the exactly-one-match
branch); promptSelected required the interactive numbered list;
created ran container creation. -/
inductive SelOutcome where
  | selected (name : String) (fam : Family)
  | promptSelected (name : String) (fam : Family)
  | created (name : String) (image : String) (fam : Family)
  | errNotFound
  | errClassify
  | errCreateFailed
  | errNoMatch
deriving DecidableEq, Repr

/-- The candidate family set (cli.rs lines 348-352): an explicit override is
a single family, otherwise it is derived from the package format. -/
def target_families (famArg : Option Family) (fmt : PackageFormat) : List Family :=
  match famArg with
  | some f => [f]
  | none =>
    match fmt with
    | PackageFormat.Deb => [Family.Debian]
    | PackageFormat.Rpm => [Family.Fedora, Family.OpenSuse]

/-- The matching loop (cli.rs lines 355-362): classify every discovered
container (classification failures are skipped) and keep the ones whose
family is in the candidate set. -/
def candidate_matches (boxes : List String) (classify : String → Option Family)
    (tf : List Family) : List (String × Family) :=
  boxes.filterMap
    (fun b =>
      match classify b with
      | some fam => if fam ∈ tf then some (b, fam) else none
      | none => none)

/-- default_box_for_family (cli.rs lines 412-419). -/
def default_box_for_family : Family → String × String
  | Family.Debian => ("debian-stable", "docker.io/library/debian:stable")
  | Family.Fedora => ("fedora-latest", "registry.fedoraproject.org/fedora:latest")
  | Family.OpenSuse => ("opensuse-tumbleweed", "registry.opensuse.org/opensuse/tumbleweed:latest")
  | Family.Arch => ("arch", "docker.io/library/archlinux:latest")

/-- The creation section of select_or_create (cli.rs lines 386-409), reached
when there is no unique match and no accepted prompt selection.  createOk is
the exit status of the external distrobox create call; ynInput theline read
at the create-confirmation prompt. -/
def create_section (tf : List Family) (createFlag : Bool) (createImage : Option String)
    (tty : Bool) (ynInput : String) (createOk : Bool) : SelOutcome :=
  let fam := tf.headD Family.Debian
  let dn := (default_box_for_family fam).1
  let di := (default_box_for_family fam).2
  let chosen := createImage.getD di
  if createFlag then
    if createOk then SelOutcome.created dn chosen fam else SelOutcome.errCreateFailed
  else if tty = true then
    let ans := toLowerAscii (trimS ynInput)
    if ans = "" ∨ ans = "y" ∨ ans = "yes" then
      if createOk then SelOutcome.created dn chosen fam else SelOutcome.errCreateFailed
    else SelOutcome.errNoMatch
  else SelOutcome.errNoMatch

/-- The match-count dispatch of select_or_create (cli.rs lines 363-384):
exactly one match is returned directly; several matches on a terminal raise
the numbered prompt, and an invalid or out-of-range answer falls through to
the creation section, as does every other case. -/
def selectFromMatches (tf : List Family) (ms : List (String × Family)) (createFlag : Bool)
    (createImage : Option String) (tty : Bool) (promptInput ynInput : String)
    (createOk : Bool) : SelOutcome :=
  if ms.length = 1 then
    match ms with
    | (n, f) :: _ => SelOutcome.selected n f
    | [] => SelOutcome.errNoMatch
  else if 1 < ms.length ∧ tty = true then
    match parseU64 (trimS promptInput) with
    | some c =>
      if 1 ≤ c ∧ c ≤ ms.length then
        match ms.get? (c - 1) with
        | some (n, f) => SelOutcome.promptSelected n f
        | none => create_section tf createFlag createImage tty ynInput createOk
      else create_section tf createFlag createImage tty ynInput createOk
    | none => create_section tf createFlag createImage tty ynInput createOk
  else create_section tf createFlag createImage tty ynInput createOk

/-- select_or_create (cli.rs lines 337-410).  boxes are the discovered
container names; classify is the per-container family classification oracle
(none is a classification error); container, famArg, createFlag, createImage
mirror the CLI flags; tty is the joint stdin/stdout terminal test. -/
def select_or_create (boxes : List String) (classify : String → Option Family)
    (container : Option String) (famArg : Option Family) (createFlag : Bool)
    (createImage : Option String) (fmt : PackageFormat) (tty : Bool)
    (promptInput ynInput : String) (createOk : Bool) : SelOutcome :=
  match container with
  | some name =>
    if name ∈ boxes then
      match classify name with
      | some fam => SelOutcome.selected name fam
      | none => SelOutcome.errClassify
    else SelOutcome.errNotFound
  | none =>
    selectFromMatches (target_families famArg fmt)
      (candidate_matches boxes classify (target_families famArg fmt))
      createFlag createImage tty promptInput ynInput createOk

/-! ### Install Pipeline integrity check (src/cli.rs lines 167-184) -/

/-- The first whitespace-separated token of a string
(split_whitespace().next()). -/
def firstToken (s : String) : Option String :=
  (splitWhitespace s).head?

/-- Whether the size check trips (cli.rs lines 169-184): the local metadata
call must succeed, the in-container stat must exit successfully, and its
first output token must parse as a u64 different from the local size; every
other shape of the capture is silently accepted. -/
def integrity_mismatch (hostSz : Nat) (metaOk : Bool) (capture : Option ProcOutput) : Bool :=
  if metaOk then
    match capture with
    | some out =>
      if out.success then
        match firstToken out.stdout with
        | some tok =>
          match parseU64 tok with
          | some n => decide (n ≠ hostSz)
          | none => false
        | none => false
      else false
    | none => false
  else false

/-- The install pipeline from just after the copy: a tripped integrity check
returns the fatal mismatch error before the install commands run, so the
outcome cannot depend on the install result. -/
def install_after_copy (hostSz : Nat) (metaOk : Bool) (capture : Option ProcOutput)
    (installOk : Bool) : Except String Bool :=
  if integrity_mismatch hostSz metaOk capture then
    Except.error "copied file size mismatch inside container"
  else Except.ok installOk

/-! ### Helper lemmas: the name-to-content map -/

theorem lookupAL_insertAL (m : List (String × String)) (k v k' : String) :
    lookupAL (insertAL m k v) k' = if k = k' then some v else lookupAL m k' := by
  induction m with
  | nil => simp [insertAL, lookupAL]
  | cons hd tl ih =>
    obtain ⟨k0, v0⟩ := hd
    by_cases h : k0 = k
    · subst h
      by_cases h2 : k0 = k'
      · subst h2; simp [insertAL, lookupAL]
      · simp [insertAL, lookupAL, h2]
    · by_cases h2 : k0 = k'
      · subst h2
        have hne : k ≠ k0 := fun e => h e.symm
        simp [insertAL, lookupAL, h, hne]
      · simp [insertAL, lookupAL, h, h2, ih]

theorem isSome_lookupAL_insertAL (m : List (String × String)) (k v p : String)
    (h : (lookupAL m p).isSome) : (lookupAL (insertAL m k v) p).isSome := by
  rw [lookupAL_insertAL]
  by_cases hk : k = p
  · simp [hk]
  · simp [hk, h]

theorem mem_of_lookupAL_eq_some {m : List (String × String)} {n v : String}
    (h : lookupAL m n = some v) : (n, v) ∈ m := by
  induction m with
  | nil => simp [lookupAL] at h
  | cons hd tl ih =>
    obtain ⟨k0, v0⟩ := hd
    by_cases hk : k0 = n
    · subst hk
      simp [lookupAL] at h
      simp [h]
    · simp [lookupAL, hk] at h
      exact List.mem_cons_of_mem _ (ih h)

/-- The keys of a map are pairwise distinct. -/
def keysNodup (m : List (String × String)) : Prop :=
  (m.map Prod.fst).Nodup

theorem insertAL_cons_eq {k0 v0 v : String} {tl : List (String × String)} :
    insertAL ((k0, v0) :: tl) k0 v = (k0, v) :: tl := by
  simp [insertAL]

theorem insertAL_cons_ne {k0 v0 k v : String} {tl : List (String × String)} (hk : k0 ≠ k) :
    insertAL ((k0, v0) :: tl) k v = (k0, v0) :: insertAL tl k v := by
  simp [insertAL, hk]

theorem keys_insertAL_sub {m : List (String × String)} {k v x : String}
    (h : x ∈ (insertAL m k v).map Prod.fst) : x ∈ m.map Prod.fst ∨ x = k := by
  induction m with
  | nil =>
    simp [insertAL] at h
    simp [h]
  | cons hd tl ih =>
    obtain ⟨k0, v0⟩ := hd
    by_cases hk : k0 = k
    · subst hk
      rw [insertAL_cons_eq, List.map_cons] at h
      rcases List.mem_cons.mp h with h | h
      · right; exact h
      · left
        rw [List.map_cons]
        exact List.mem_cons_of_mem _ h
    · rw [insertAL_cons_ne hk, List.map_cons] at h
      rcases List.mem_cons.mp h with h | h
      · left
        rw [List.map_cons]
        exact List.mem_cons.mpr (Or.inl h)
      · rcases ih h with h2 | h2
        · left
          rw [List.map_cons]
          exact List.mem_cons_of_mem _ h2
        · right; exact h2

theorem keysNodup_insertAL {m : List (String × String)} {k v : String}
    (h : keysNodup m) : keysNodup (insertAL m k v) := by
  induction m with
  | nil => simp [insertAL, keysNodup]
  | cons hd tl ih =>
    obtain ⟨k0, v0⟩ := hd
    have hsplit : k0 ∉ tl.map Prod.fst ∧ (tl.map Prod.fst).Nodup := by
      unfold keysNodup at h
      rw [List.map_cons] at h
      exact List.nodup_cons.mp h
    by_cases hk : k0 = k
    · subst hk
      unfold keysNodup
      rw [insertAL_cons_eq, List.map_cons]
      exact List.nodup_cons.mpr hsplit
    · have h3 : keysNodup (insertAL tl k v) := ih hsplit.2
      have h4 : k0 ∉ (insertAL tl k v).map Prod.fst := by
        intro hmem
        rcases keys_insertAL_sub hmem with h5 | h5
        · exact hsplit.1 h5
        · exact hk h5
      unfold keysNodup
      rw [insertAL_cons_ne hk, List.map_cons]
      exact List.nodup_cons.mpr ⟨h4, h3⟩

theorem lookupAL_eq_some_of_mem {m : List (String × String)} {n v : String}
    (hnd : keysNodup m) (h : (n, v) ∈ m) : lookupAL m n = some v := by
  induction m with
  | nil => simp at h
  | cons hd tl ih =>
    obtain ⟨k0, v0⟩ := hd
    have hsplit : k0 ∉ tl.map Prod.fst ∧ (tl.map Prod.fst).Nodup := by
      unfold keysNodup at hnd
      rw [List.map_cons] at hnd
      exact List.nodup_cons.mp hnd
    rcases List.mem_cons.mp h with he | htl
    · injection he with e1 e2
      subst e1
      subst e2
      simp [lookupAL]
    · have hne : k0 ≠ n := by
        intro e
        subst e
        exact hsplit.1 (List.mem_map_of_mem Prod.fst htl)
      rw [show lookupAL ((k0, v0) :: tl) n = lookupAL tl n from by simp [lookupAL, hne]]
      exact ih hsplit.2 htl

theorem keysNodup_mapFromLines (parse : String → Option (String × String))
    (lines : List String) : keysNodup (mapFromLines parse lines) := by
  have gen : ∀ (ls : List String) (m : List (String × String)), keysNodup m →
      keysNodup (ls.foldl
        (fun m l =>
          match parse l with
          | some (n, v) => insertAL m n v
          | none => m) m) := by
    intro ls
    induction ls with
    | nil => intro m hm; exact hm
    | cons x xs ih =>
      intro m hm
      apply ih
      cases hp : parse x with
      | none => simpa [hp] using hm
      | some nv =>
        obtain ⟨n, v⟩ := nv
        simpa [hp] using keysNodup_insertAL hm
  exact gen lines [] (by simp [keysNodup])

theorem mem_filterMapFst {m : List (String × String)} {P : String × String → Bool}
    {n : String} (hnd : keysNodup m) :
    n ∈ (m.filter P).map Prod.fst ↔ ∃ v, lookupAL m n = some v ∧ P (n, v) = true := by
  constructor
  · intro h
    rcases List.mem_map.mp h with ⟨⟨n', v⟩, hmem, he⟩
    simp at he
    subst he
    rcases List.mem_filter.mp hmem with ⟨hin, hP⟩
    exact ⟨v, lookupAL_eq_some_of_mem hnd hin, hP⟩
  · rintro ⟨v, hl, hP⟩
    exact List.mem_map.mpr ⟨(n, v), List.mem_filter.mpr ⟨mem_of_lookupAL_eq_some hl, hP⟩, rfl⟩

/-! ### Helper lemmas: shim paths and the export fold -/

theorem strAppendCancel (a b s : String) (h : a ++ s = b ++ s) : a = b := by
  have h2 : a.data ++ s.data = b.data ++ s.data := by
    rw [← String.data_append, ← String.data_append, h]
  cases a with
  | mk da =>
    cases b with
    | mk db =>
      simp only at h2
      exact congrArg String.mk (List.append_cancel_right h2)

theorem shimPath_inj {b1 b2 boxName : String} (h : shimPath b1 boxName = shimPath b2 boxName) :
    b1 = b2 := by
  unfold shimPath at h
  exact strAppendCancel _ _ _ (strAppendCancel _ _ _ h)

theorem isSome_export_one_bin (boxName : String) (ok : String → Bool) (ec : String → String)
    (fs : List (String × String)) (x p : String) (h : (lookupAL fs p).isSome) :
    (lookupAL (export_one_bin boxName ok ec fs x) p).isSome := by
  unfold export_one_bin
  split_ifs <;> exact isSome_lookupAL_insertAL _ _ _ _ h

theorem hasShim_export_one_bin {boxName b : String} {ok : String → Bool} {ec : String → String}
    {fs : List (String × String)} (x : String) (hb : (lookupAL fs b).isSome)
    (hs : HasShim boxName b fs) : HasShim boxName b (export_one_bin boxName ok ec fs x) := by
  unfold export_one_bin
  by_cases hx : (lookupAL fs x).isSome
  · simp only [if_pos hx]
    unfold HasShim at *
    rw [lookupAL_insertAL]
    by_cases hkey : shimPath x boxName = shimPath b boxName
    · have hxb : x = b := shimPath_inj hkey
      subst hxb
      simp
    · simp [hkey, hs]
  · have hxn : lookupAL fs x = none := Option.not_isSome_iff_eq_none.mp hx
    have hxb : x ≠ b := by
      intro e
      subst e
      rw [hxn] at hb
      simp at hb
    have hxs : x ≠ shimPath b boxName := by
      intro e
      unfold HasShim at hs
      rw [← e, hxn] at hs
      cases hs
    simp only [if_neg hx]
    unfold HasShim at *
    split_ifs <;> · rw [lookupAL_insertAL]; simp [hxs, hs]

theorem hasShim_establish {boxName b : String} {ok : String → Bool} {ec : String → String}
    {fs : List (String × String)} (hb : (lookupAL fs b).isSome) :
    HasShim boxName b (export_one_bin boxName ok ec fs b) := by
  unfold export_one_bin HasShim
  simp only [if_pos hb]
  rw [lookupAL_insertAL]
  simp

theorem hasShim_fold {boxName b : String} {ok : String → Bool} {ec : String → String}
    (l : List String) : ∀ fs : List (String × String), (lookupAL fs b).isSome →
    HasShim boxName b fs →
    (lookupAL (l.foldl (export_one_bin boxName ok ec) fs) b).isSome ∧
      HasShim boxName b (l.foldl (export_one_bin boxName ok ec) fs) := by
  induction l with
  | nil => intro fs h1 h2; exact ⟨h1, h2⟩
  | cons x xs ih =>
    intro fs h1 h2
    exact ih _ (isSome_export_one_bin _ _ _ _ _ _ h1) (hasShim_export_one_bin x h1 h2)

theorem hasShim_run {boxName b : String} {ok : String → Bool} {ec : String → String}
    (l : List String) : ∀ fs : List (String × String), b ∈ l → (lookupAL fs b).isSome →
    (lookupAL (l.foldl (export_one_bin boxName ok ec) fs) b).isSome ∧
      HasShim boxName b (l.foldl (export_one_bin boxName ok ec) fs) := by
  induction l with
  | nil => intro fs h; simp at h
  | cons x xs ih =>
    intro fs hmem hb
    rcases List.mem_cons.mp hmem with he | hxs
    · subst he
      exact hasShim_fold xs _ (isSome_export_one_bin _ _ _ _ _ _ hb) (hasShim_establish hb)
    · exact ih _ hxs (isSome_export_one_bin _ _ _ _ _ _ hb)

theorem shimOrSame_step {boxName p cp : String} {bins : List String} {ok : String → Bool}
    {ec : String → String} {fs : List (String × String)} {x : String} (hx : x ∈ bins)
    (hQ : ShimOrSame boxName bins p cp fs) :
    ShimOrSame boxName bins p cp (export_one_bin boxName ok ec fs x) := by
  have hpsome : (lookupAL fs p).isSome := by
    rcases hQ with h | ⟨b, _, _, h⟩ <;> simp [h]
  unfold export_one_bin
  by_cases hcol : (lookupAL fs x).isSome
  · simp only [if_pos hcol]
    by_cases hkey : shimPath x boxName = p
    · right
      exact ⟨x, hx, hkey.symm, by rw [lookupAL_insertAL]; simp [hkey]⟩
    · rcases hQ with h | ⟨b, hb1, hb2, h3⟩
      · left; rw [lookupAL_insertAL]; simp [hkey, h]
      · right; exact ⟨b, hb1, hb2, by rw [lookupAL_insertAL]; simp [hkey, h3]⟩
  · have hxn : lookupAL fs x = none := Option.not_isSome_iff_eq_none.mp hcol
    have hxp : x ≠ p := by
      intro e
      rw [e] at hxn
      rw [hxn] at hpsome
      simp at hpsome
    simp only [if_neg hcol]
    split_ifs <;>
    · rcases hQ with h | ⟨b, hb1, hb2, h3⟩
      · left; rw [lookupAL_insertAL]; simp [hxp, h]
      · right; exact ⟨b, hb1, hb2, by rw [lookupAL_insertAL]; simp [hxp, h3]⟩

theorem shimOrSame_fold {boxName p cp : String} {bins : List String} {ok : String → Bool}
    {ec : String → String} (l : List String) (hsub : ∀ y ∈ l, y ∈ bins) :
    ∀ fs : List (String × String), ShimOrSame boxName bins p cp fs →
    ShimOrSame boxName bins p cp (l.foldl (export_one_bin boxName ok ec) fs) := by
  induction l with
  | nil => intro fs h; exact h
  | cons x xs ih =>
    intro fs h
    exact ih (fun y hy => hsub y (List.mem_cons_of_mem _ hy)) _
      (shimOrSame_step (hsub x (List.mem_cons_self _ _)) h)

/-! ### Claim C1 -/

/-- C1 (amended): for every binary b that collides with a pre-existing host
file, export writes the fallback shim at b-container, on the first run and
again (same path, same content) on an immediate second run; and every host
file p that existed before the first export is, after one or two export
runs, either byte-for-byte unchanged or is the collision shim path of one of
the exported binaries and holds exactly that fallback shim (the one case the
original claim misses: a pre-existing file whose own name equals the shim
path b2-container of another colliding exported binary b2 is overwritten
with that shim). -/
theorem c1_export_collision_preserves (boxName : String) (ok1 ok2 : String → Bool)
    (ec1 ec2 : String → String) (fs0 : List (String × String)) (bins : List String)
    (b c p cp : String) (hb : lookupAL fs0 b = some c) (hbin : b ∈ bins)
    (hp : lookupAL fs0 p = some cp) :
    HasShim boxName b (export_bins boxName ok1 ec1 fs0 bins) ∧
    HasShim boxName b (export_bins boxName ok2 ec2 (export_bins boxName ok1 ec1 fs0 bins) bins) ∧
    ShimOrSame boxName bins p cp (export_bins boxName ok1 ec1 fs0 bins) ∧
    ShimOrSame boxName bins p cp
      (export_bins boxName ok2 ec2 (export_bins boxName ok1 ec1 fs0 bins) bins) := by
  have hb1 : (lookupAL fs0 b).isSome := by simp [hb]
  have run1 := @hasShim_run boxName b ok1 ec1 bins fs0 hbin hb1
  have run2 := @hasShim_run boxName b ok2 ec2 bins
    (bins.foldl (export_one_bin boxName ok1 ec1) fs0) hbin run1.1
  have q0 : ShimOrSame boxName bins p cp fs0 := Or.inl hp
  have q1 := @shimOrSame_fold boxName p cp bins ok1 ec1 bins
    (fun _ hy => hy) fs0 q0
  have q2 := @shimOrSame_fold boxName p cp bins ok2 ec2 bins
    (fun _ hy => hy) (bins.foldl (export_one_bin boxName ok1 ec1) fs0) q1
  exact ⟨run1.2, run2.2, q1, q2⟩

/-- C1 witness: a concrete collision, the external helper failing
throughout. -/
theorem c1_witness :
    lookupAL [("foo", "A")] "foo" = some "A" ∧ "foo" ∈ ["foo"] ∧
    (HasShim "mybox" "foo"
        (export_bins "mybox" (fun _ => false) (fun _ => "") [("foo", "A")] ["foo"]) ∧
      HasShim "mybox" "foo"
        (export_bins "mybox" (fun _ => false) (fun _ => "")
          (export_bins "mybox" (fun _ => false) (fun _ => "") [("foo", "A")] ["foo"])
          ["foo"]) ∧
      ShimOrSame "mybox" ["foo"] "foo" "A"
        (export_bins "mybox" (fun _ => false) (fun _ => "") [("foo", "A")] ["foo"]) ∧
      ShimOrSame "mybox" ["foo"] "foo" "A"
        (export_bins "mybox" (fun _ => false) (fun _ => "")
          (export_bins "mybox" (fun _ => false) (fun _ => "") [("foo", "A")] ["foo"])
          ["foo"])) :=
  ⟨by decide, by decide,
    c1_export_collision_preserves "mybox" (fun _ => false) (fun _ => false)
      (fun _ => "") (fun _ => "") [("foo", "A")] ["foo"] "foo" "A" "foo" "A"
      (by decide) (by decide) (by decide)⟩

/-- C1 counterexample: with container mybox, exported binaries foo and
foo-mybox, and pre-existing host files foo and foo-mybox, the collision shim
written for foo lands on the path foo-mybox and destroys the pre-existing
file foo-mybox, so the claim that a pre-existing host file is never
overwritten is false as stated. -/
theorem c1_counterexample :
    lookupAL [("foo", "A"), ("foo-mybox", "B")] "foo-mybox" = some "B" ∧
    lookupAL
      (export_bins "mybox" (fun _ => false) (fun _ => "")
        [("foo", "A"), ("foo-mybox", "B")] ["foo", "foo-mybox"]) "foo-mybox" ≠ some "B" := by
  decide

/-! ### Claim C2 -/

theorem isNewAt_eq {bm : List (String × String)} {n v : String} :
    isNewAt bm (n, v) = true ↔ lookupAL bm n = none := by
  simp [isNewAt, Option.isNone_iff_eq_none]

theorem isUpgAt_eq {bm : List (String × String)} {n v : String} :
    isUpgAt bm (n, v) = true ↔ ∃ prev, lookupAL bm n = some prev ∧ prev ≠ v := by
  unfold isUpgAt
  cases h : lookupAL bm n with
  | none => simp
  | some prev => simp

/-- C2 (amended): a current package is classified new exactly when its name
is absent from the prior snapshot map and upgraded exactly when the prior
version string differs; the packages handed to export are exactly the new
ones followed by the upgraded ones; and the snapshot file is rewritten with
the full current inventory whenever at least one package is new or upgraded,
regardless of per-package export outcomes, but is left untouched (possibly
stale, e.g. after removals) when nothing is new or upgraded. -/
theorem c2_post_transaction_spec (bl al : List String) (n : String) :
    (n ∈ (pm_post_transaction bl al).newPkgs ↔
      ∃ v, lookupAL (mapFromLines parse_after_line al) n = some v ∧
        lookupAL (mapFromLines parse_before_line bl) n = none) ∧
    (n ∈ (pm_post_transaction bl al).upgraded ↔
      ∃ v, lookupAL (mapFromLines parse_after_line al) n = some v ∧
        ∃ prev, lookupAL (mapFromLines parse_before_line bl) n = some prev ∧ prev ≠ v) ∧
    ((pm_post_transaction bl al).exported =
      (pm_post_transaction bl al).newPkgs ++ (pm_post_transaction bl al).upgraded) ∧
    ((pm_post_transaction bl al).newPkgs ≠ [] ∨ (pm_post_transaction bl al).upgraded ≠ [] →
      (pm_post_transaction bl al).snapshot = some al) ∧
    ((pm_post_transaction bl al).newPkgs = [] → (pm_post_transaction bl al).upgraded = [] →
      (pm_post_transaction bl al).snapshot = none) := by
  have hnd : keysNodup (mapFromLines parse_after_line al) :=
    keysNodup_mapFromLines parse_after_line al
  by_cases hc :
      (((mapFromLines parse_after_line al).filter
          (isNewAt (mapFromLines parse_before_line bl))).map Prod.fst).isEmpty = true ∧
      (((mapFromLines parse_after_line al).filter
          (isUpgAt (mapFromLines parse_before_line bl))).map Prod.fst).isEmpty = true
  · have hres : pm_post_transaction bl al =
        { newPkgs := ((mapFromLines parse_after_line al).filter
            (isNewAt (mapFromLines parse_before_line bl))).map Prod.fst,
          upgraded := ((mapFromLines parse_after_line al).filter
            (isUpgAt (mapFromLines parse_before_line bl))).map Prod.fst,
          exported := [], snapshot := none } := by
      simp only [pm_post_transaction]
      rw [if_pos hc]
    have hnew :
        ((mapFromLines parse_after_line al).filter
          (isNewAt (mapFromLines parse_before_line bl))).map Prod.fst = [] :=
      List.isEmpty_iff.mp hc.1
    have hupg :
        ((mapFromLines parse_after_line al).filter
          (isUpgAt (mapFromLines parse_before_line bl))).map Prod.fst = [] :=
      List.isEmpty_iff.mp hc.2
    rw [hres]
    dsimp only
    refine ⟨?_, ?_, ?_, ?_, ?_⟩
    · rw [mem_filterMapFst hnd]
      exact exists_congr fun v => and_congr_right fun _ => isNewAt_eq
    · rw [mem_filterMapFst hnd]
      exact exists_congr fun v => and_congr_right fun _ => isUpgAt_eq
    · rw [hnew, hupg]
      rfl
    · intro habs
      rcases habs with h | h
      · exact absurd hnew h
      · exact absurd hupg h
    · intro _ _
      rfl
  · have hres : pm_post_transaction bl al =
        { newPkgs := ((mapFromLines parse_after_line al).filter
            (isNewAt (mapFromLines parse_before_line bl))).map Prod.fst,
          upgraded := ((mapFromLines parse_after_line al).filter
            (isUpgAt (mapFromLines parse_before_line bl))).map Prod.fst,
          exported := ((mapFromLines parse_after_line al).filter
              (isNewAt (mapFromLines parse_before_line bl))).map Prod.fst ++
            ((mapFromLines parse_after_line al).filter
              (isUpgAt (mapFromLines parse_before_line bl))).map Prod.fst,
          snapshot := some al } := by
      simp only [pm_post_transaction]
      rw [if_neg hc]
    rw [hres]
    dsimp only
    refine ⟨?_, ?_, rfl, fun _ => rfl, ?_⟩
    · rw [mem_filterMapFst hnd]
      exact exists_congr fun v => and_congr_right fun _ => isNewAt_eq
    · rw [mem_filterMapFst hnd]
      exact exists_congr fun v => and_congr_right fun _ => isUpgAt_eq
    · intro hn hu
      exact absurd ⟨List.isEmpty_iff.mpr hn, List.isEmpty_iff.mpr hu⟩ hc

/-- C2 witness: the spec example before = A:1 B:2, current = A:1 B:3 C:1;
the snapshot is rewritten with the current inventory. -/
theorem c2_witness :
    (pm_post_transaction ["A\t1", "B\t2"] ["A\t1", "B\t3", "C\t1"]).snapshot =
      some ["A\t1", "B\t3", "C\t1"] :=
  (c2_post_transaction_spec ["A\t1", "B\t2"] ["A\t1", "B\t3", "C\t1"] "B").2.2.2.1
    (by decide)

/-- C2 counterexample: with prior snapshot A:1 B:2 and current inventory
just A:1 (B was removed), nothing is new or upgraded, pm_post_transaction
returns early without rewriting the snapshot file, and the persisted
snapshot does not equal the current inventory as the claim demands. -/
theorem c2_counterexample :
    final_snapshot_file ["A\t1", "B\t2"] ["A\t1"] ≠ ["A\t1"] := by
  decide

/-! ### Claim C3 -/

/-- C3 (amended): the extension is checked first, case-insensitively
(.deb yields Deb, .rpm yields Rpm, regardless of content); only when the
extension is neither does the detector sniff the content, and the magic
check requires the file to be at least 8 bytes long: then RPM lead bytes
ED AB EE DB yield Rpm, the ar signature yields Deb, and otherwise a
debian-binary token within the first 2048 bytes yields Deb; with none of
these, detection fails (FormatUnknown).  A file shorter than 8 bytes never
matches by magic even when its first 4 bytes are the RPM lead. -/
theorem c3_detect_spec (f : PkgFile) :
    (f.ext.map toLowerAscii = some "deb" →
      detect_package_format f = some PackageFormat.Deb) ∧
    (f.ext.map toLowerAscii = some "rpm" →
      detect_package_format f = some PackageFormat.Rpm) ∧
    (f.ext.map toLowerAscii ≠ some "deb" → f.ext.map toLowerAscii ≠ some "rpm" →
      ((8 ≤ f.bytes.length → f.bytes.take 4 = rpmMagic →
          detect_package_format f = some PackageFormat.Rpm) ∧
        (8 ≤ f.bytes.length → f.bytes.take 8 = arMagic →
          detect_package_format f = some PackageFormat.Deb) ∧
        (¬ (8 ≤ f.bytes.length ∧ (f.bytes.take 4 = rpmMagic ∨ f.bytes.take 8 = arMagic)) →
          hasWindow (f.bytes.take 2048) debianBinaryTok = true →
          detect_package_format f = some PackageFormat.Deb) ∧
        (¬ (8 ≤ f.bytes.length ∧ (f.bytes.take 4 = rpmMagic ∨ f.bytes.take 8 = arMagic)) →
          hasWindow (f.bytes.take 2048) debianBinaryTok = false →
          detect_package_format f = none))) := by
  refine ⟨fun hd => by simp [detect_package_format, hd], ?_, ?_⟩
  · intro hr
    have hd : f.ext.map toLowerAscii ≠ some "deb" := by
      rw [hr]
      decide
    simp [detect_package_format, hd, hr]
  · intro hd hr
    refine ⟨?_, ?_, ?_, ?_⟩
    · intro hlen hmag
      simp [detect_package_format, hd, hr, detectContent, hlen, hmag]
    · intro hlen har
      have h4 : f.bytes.take 4 = arMagic.take 4 := by
        rw [← har, List.take_take]
        norm_num
      have hne : f.bytes.take 4 ≠ rpmMagic := by
        rw [h4]
        decide
      simp [detect_package_format, hd, hr, detectContent, hlen, hne, har]
    · intro hno hwin
      rcases Decidable.em (8 ≤ f.bytes.length) with hlen | hlen
      · have hnr : f.bytes.take 4 ≠ rpmMagic := fun h => hno ⟨hlen, Or.inl h⟩
        have hna : f.bytes.take 8 ≠ arMagic := fun h => hno ⟨hlen, Or.inr h⟩
        simp [detect_package_format, hd, hr, detectContent, hlen, hnr, hna, detectScan, hwin]
      · simp [detect_package_format, hd, hr, detectContent, hlen, detectScan, hwin]
    · intro hno hwin
      rcases Decidable.em (8 ≤ f.bytes.length) with hlen | hlen
      · have hnr : f.bytes.take 4 ≠ rpmMagic := fun h => hno ⟨hlen, Or.inl h⟩
        have hna : f.bytes.take 8 ≠ arMagic := fun h => hno ⟨hlen, Or.inr h⟩
        simp [detect_package_format, hd, hr, detectContent, hlen, hnr, hna, detectScan, hwin]
      · simp [detect_package_format, hd, hr, detectContent, hlen, detectScan, hwin]

/-- C3 witness: an upper-case DEB extension is detected as Deb without
looking at the bytes. -/
theorem c3_witness :
    detect_package_format (PkgFile.mk (some "DEB") []) = some PackageFormat.Deb :=
  (c3_detect_spec (PkgFile.mk (some "DEB") [])).1 (by decide)

/-- C3 counterexample: a file of exactly the 4 RPM lead bytes ED AB EE DB
and no usable extension satisfies the claim premise for Rpm, yet the code
requires at least 8 readable bytes before consulting the magic and returns
FormatUnknown. -/
theorem c3_counterexample :
    (PkgFile.mk none [0xed, 0xab, 0xee, 0xdb]).bytes.take 4 = rpmMagic ∧
    detect_package_format (PkgFile.mk none [0xed, 0xab, 0xee, 0xdb]) = none := by
  decide

/-! ### Claim C4 -/

/-- C4: discovery degrades to an empty Ok list when the listing tool exits
non-zero, but when the tool is absent (both spawn attempts fail) the
question-mark operator propagates the spawn error and discover_boxes
returns an error, contradicting the claim and the inline comment
"Not found or error; return empty gracefully". -/
theorem c4_discovery_absent_vs_nonzero :
    (∀ pj : String → Option (List DistroBox),
      discover_boxes none none pj = Except.error "running 'distrobox list'") ∧
    (∀ (pj : String → Option (List DistroBox)) (s1 s2 : String),
      discover_boxes (some ⟨false, s1⟩) (some ⟨false, s2⟩) pj = Except.ok []) := by
  constructor
  · intro pj
    rfl
  · intro pj s1 s2
    simp [discover_boxes]

/-! ### Claim C5 -/

/-- C5: whenever the in-container size query succeeds and its first output
token parses as a u64 different from the local file size, the pipeline
returns the fatal integrity-mismatch error, whatever the install commands
would have produced (installation never runs). -/
theorem c5_integrity_mismatch_fatal (hostSz : Nat) (s tok : String) (m : Nat)
    (installOk : Bool) (h1 : firstToken s = some tok) (h2 : parseU64 tok = some m)
    (h3 : m ≠ hostSz) :
    install_after_copy hostSz true (some ⟨true, s⟩) installOk =
      Except.error "copied file size mismatch inside container" := by
  unfold install_after_copy integrity_mismatch
  simp [h1, h2, h3]

/-- C5 witness: local size 5, in-container report 7. -/
theorem c5_witness :
    firstToken " 7 \n" = some "7" ∧ parseU64 "7" = some 7 ∧ 7 ≠ 5 ∧
    install_after_copy 5 true (some ⟨true, " 7 \n"⟩) true =
      Except.error "copied file size mismatch inside container" :=
  ⟨by decide, by decide, by decide,
    c5_integrity_mismatch_fatal 5 " 7 \n" "7" 7 true (by decide) (by decide) (by decide)⟩

/-! ### Claim C6 -/

/-- C6: when no explicit container is requested and exactly one discovered
container classifies into the candidate family set, select_or_create
returns that container through the direct, prompt-free path (the selected
outcome is produced before any prompt or creation code is reached). -/
theorem c6_unique_match_selected (boxes : List String) (classify : String → Option Family)
    (famArg : Option Family) (createFlag : Bool) (createImage : Option String)
    (fmt : PackageFormat) (tty : Bool) (promptInput ynInput : String) (createOk : Bool)
    (n : String) (f : Family)
    (h : candidate_matches boxes classify (target_families famArg fmt) = [(n, f)]) :
    select_or_create boxes classify none famArg createFlag createImage fmt tty
      promptInput ynInput createOk = SelOutcome.selected n f := by
  unfold select_or_create
  rw [h]
  unfold selectFromMatches
  simp

/-- C6 witness: a single Debian container for a deb package. -/
theorem c6_witness :
    candidate_matches ["deb1"] (fun _ => some Family.Debian)
      (target_families none PackageFormat.Deb) = [("deb1", Family.Debian)] ∧
    select_or_create ["deb1"] (fun _ => some Family.Debian) none none false none
      PackageFormat.Deb true "" "" true = SelOutcome.selected "deb1" Family.Debian :=
  ⟨by decide,
    c6_unique_match_selected ["deb1"] (fun _ => some Family.Debian) none false none
      PackageFormat.Deb true "" "" true "deb1" Family.Debian (by decide)⟩

/-! ### Claim C7 -/

/-- C7: with two matching Debian containers and the auto-create flag set,
the code does create a new container instead of failing: in a
non-interactive session the prompt is skipped and control falls straight
into the creation section, and in an interactive session an invalid
numbered-list answer falls through to the same creation section; both runs
end in created rather than the NoMatchFound-style failure the claim
requires. -/
theorem c7_ambiguous_creates_container :
    select_or_create ["boxa", "boxb"] (fun _ => some Family.Debian) none none true none
      PackageFormat.Deb false "" "" true =
      SelOutcome.created "debian-stable" "docker.io/library/debian:stable" Family.Debian ∧
    select_or_create ["boxa", "boxb"] (fun _ => some Family.Debian) none none true none
      PackageFormat.Deb true "oops\n" "" true =
      SelOutcome.created "debian-stable" "docker.io/library/debian:stable" Family.Debian := by
  decide

/-! ### Claim C8 -/

theorem any_two_eq (T : List String) (a b : String) :
    (T.any fun t => decide (t = a ∨ t = b)) = true ↔ (a ∈ T ∨ b ∈ T) := by
  rw [List.any_eq_true]
  constructor
  · rintro ⟨t, ht, hab⟩
    rw [decide_eq_true_eq] at hab
    rcases hab with h | h
    · left
      rw [← h]
      exact ht
    · right
      rw [← h]
      exact ht
  · rintro (h | h)
    · exact ⟨a, h, by simp⟩
    · exact ⟨b, h, by simp⟩

theorem any_three_eq (T : List String) (a b c : String) :
    (T.any fun t => decide (t = a ∨ t = b ∨ t = c)) = true ↔ (a ∈ T ∨ b ∈ T ∨ c ∈ T) := by
  rw [List.any_eq_true]
  constructor
  · rintro ⟨t, ht, hab⟩
    rw [decide_eq_true_eq] at hab
    rcases hab with h | h | h
    · left
      rw [← h]
      exact ht
    · right; left
      rw [← h]
      exact ht
    · right; right
      rw [← h]
      exact ht
  · rintro (h | h | h)
    · exact ⟨a, h, by simp⟩
    · exact ⟨b, h, by simp⟩
    · exact ⟨c, h, by simp⟩

/-- C8 (amended): whenever the parsed token list (the final ID value
followed by all ID_LIKE tokens) contains debian or ubuntu the classifier
returns Debian; families are checked in the fixed order Debian, Fedora,
OpenSuse, Arch and the first match wins; with no matching token
classification fails.  In particular the single-line inputs ID=ubuntu and
ID_LIKE="debian" classify as Debian — but only the last ID= line counts,
so an input merely containing ID=ubuntu need not classify as Debian when a
later ID= line overrides it. -/
theorem c8_classifier_spec :
    (∀ (s : String) (id : Option String) (idLike : List String),
      parse_os_release s = some (id, idLike) →
      ("debian" ∈ classifyTokens id idLike ∨ "ubuntu" ∈ classifyTokens id idLike) →
      classify_release s = some (some Family.Debian)) ∧
    (∀ (id : Option String) (idLike : List String),
      ¬ ("debian" ∈ classifyTokens id idLike ∨ "ubuntu" ∈ classifyTokens id idLike) →
      ("fedora" ∈ classifyTokens id idLike ∨ "rhel" ∈ classifyTokens id idLike ∨
        "centos" ∈ classifyTokens id idLike) →
      classify_ids id idLike = some Family.Fedora) ∧
    (∀ (id : Option String) (idLike : List String),
      ¬ ("debian" ∈ classifyTokens id idLike ∨ "ubuntu" ∈ classifyTokens id idLike) →
      ¬ ("fedora" ∈ classifyTokens id idLike ∨ "rhel" ∈ classifyTokens id idLike ∨
        "centos" ∈ classifyTokens id idLike) →
      ("opensuse" ∈ classifyTokens id idLike ∨ "sles" ∈ classifyTokens id idLike ∨
        "suse" ∈ classifyTokens id idLike) →
      classify_ids id idLike = some Family.OpenSuse) ∧
    (∀ (id : Option String) (idLike : List String),
      ¬ ("debian" ∈ classifyTokens id idLike ∨ "ubuntu" ∈ classifyTokens id idLike) →
      ¬ ("fedora" ∈ classifyTokens id idLike ∨ "rhel" ∈ classifyTokens id idLike ∨
        "centos" ∈ classifyTokens id idLike) →
      ¬ ("opensuse" ∈ classifyTokens id idLike ∨ "sles" ∈ classifyTokens id idLike ∨
        "suse" ∈ classifyTokens id idLike) →
      ("arch" ∈ classifyTokens id idLike ∨ "manjaro" ∈ classifyTokens id idLike ∨
        "endeavouros" ∈ classifyTokens id idLike) →
      classify_ids id idLike = some Family.Arch) ∧
    (∀ (id : Option String) (idLike : List String),
      ¬ ("debian" ∈ classifyTokens id idLike ∨ "ubuntu" ∈ classifyTokens id idLike) →
      ¬ ("fedora" ∈ classifyTokens id idLike ∨ "rhel" ∈ classifyTokens id idLike ∨
        "centos" ∈ classifyTokens id idLike) →
      ¬ ("opensuse" ∈ classifyTokens id idLike ∨ "sles" ∈ classifyTokens id idLike ∨
        "suse" ∈ classifyTokens id idLike) →
      ¬ ("arch" ∈ classifyTokens id idLike ∨ "manjaro" ∈ classifyTokens id idLike ∨
        "endeavouros" ∈ classifyTokens id idLike) →
      classify_ids id idLike = none) ∧
    classify_release "ID=ubuntu" = some (some Family.Debian) ∧
    classify_release "ID_LIKE=\"debian\"" = some (some Family.Debian) := by
  have hdeb : ∀ (id : Option String) (idLike : List String),
      ("debian" ∈ classifyTokens id idLike ∨ "ubuntu" ∈ classifyTokens id idLike) →
      classify_ids id idLike = some Family.Debian := by
    intro id idLike hmem
    unfold classify_ids
    rw [if_pos ((any_two_eq (classifyTokens id idLike) "debian" "ubuntu").mpr hmem)]
  refine ⟨?_, ?_, ?_, ?_, ?_, by decide, by decide⟩
  · intro s id idLike hp hmem
    unfold classify_release
    rw [hp]
    simp only [Option.map]
    rw [hdeb id idLike hmem]
  · intro id idLike h1 h2
    unfold classify_ids
    rw [if_neg (fun hb => h1 ((any_two_eq _ "debian" "ubuntu").mp hb)),
      if_pos ((any_three_eq _ "fedora" "rhel" "centos").mpr h2)]
  · intro id idLike h1 h2 h3
    unfold classify_ids
    rw [if_neg (fun hb => h1 ((any_two_eq _ "debian" "ubuntu").mp hb)),
      if_neg (fun hb => h2 ((any_three_eq _ "fedora" "rhel" "centos").mp hb)),
      if_pos ((any_three_eq _ "opensuse" "sles" "suse").mpr h3)]
  · intro id idLike h1 h2 h3 h4
    unfold classify_ids
    rw [if_neg (fun hb => h1 ((any_two_eq _ "debian" "ubuntu").mp hb)),
      if_neg (fun hb => h2 ((any_three_eq _ "fedora" "rhel" "centos").mp hb)),
      if_neg (fun hb => h3 ((any_three_eq _ "opensuse" "sles" "suse").mp hb)),
      if_pos ((any_three_eq _ "arch" "manjaro" "endeavouros").mpr h4)]
  · intro id idLike h1 h2 h3 h4
    unfold classify_ids
    rw [if_neg (fun hb => h1 ((any_two_eq _ "debian" "ubuntu").mp hb)),
      if_neg (fun hb => h2 ((any_three_eq _ "fedora" "rhel" "centos").mp hb)),
      if_neg (fun hb => h3 ((any_three_eq _ "opensuse" "sles" "suse").mp hb)),
      if_neg (fun hb => h4 ((any_three_eq _ "arch" "manjaro" "endeavouros").mp hb))]

/-- C8 witness: the single-line input ID=ubuntu parses to the ubuntu token
and classifies as Debian. -/
theorem c8_witness :
    parse_os_release "ID=ubuntu" = some (some "ubuntu", []) ∧
    classify_release "ID=ubuntu" = some (some Family.Debian) :=
  ⟨by decide,
    c8_classifier_spec.1 "ID=ubuntu" (some "ubuntu") [] (by decide) (by decide)⟩

/-- C8 counterexample: an input containing the line ID=ubuntu followed by a
later ID=fedora classifies as Fedora, not Debian, because only the last
ID= line is kept. -/
theorem c8_counterexample :
    strContains "ID=ubuntu\nID=fedora" "ID=ubuntu" = true ∧
    classify_release "ID=ubuntu\nID=fedora" = some (some Family.Fedora) := by
  decide

/-! ### Claim C9 -/

/-- C9: the release-file parser is not total: on the line ID=" the trimmed
field value is the single double-quote character, it passes the
starts-with-quote and ends-with-quote test, and the slice
t[1..t.len().saturating_sub(1)] is t[1..0], which panics in Rust (modelled
as none); the saturating_sub shows the degenerate case was meant to be
handled. -/
theorem c9_unquote_panics :
    unquote "\"" = none ∧ parse_os_release "ID=\"" = none := by
  decide

/-! ### Claim C10 -/

/-- C10: loading the defaults record and the first-run state never fails:
a missing or unreadable file and a failed parse of a read file all produce
the default records (empty family map; first_run_done false). -/
theorem c10_load_defaults_total :
    (∀ p : String → Option PBConfig, load_config none p = ⟨[]⟩) ∧
    (∀ (p : String → Option PBConfig) (s : String), p s = none →
      load_config (some s) p = ⟨[]⟩) ∧
    (∀ p : String → Option PBState, load_state none p = ⟨false⟩) ∧
    (∀ (p : String → Option PBState) (s : String), p s = none →
      load_state (some s) p = ⟨false⟩) := by
  refine ⟨fun p => rfl, fun p s h => ?_, fun p => rfl, fun p s h => ?_⟩
  · simp [load_config, h]
  · simp [load_state, h]

/-- C10 witness: an unparsable file content collapses to the default
record. -/
theorem c10_witness :
    (fun _ : String => (none : Option PBConfig)) "not toml" = none ∧
    load_config (some "not toml") (fun _ => none) = ⟨[]⟩ :=
  ⟨rfl, c10_load_defaults_total.2.1 (fun _ => none) "not toml" rfl⟩

end PkgBridge
